import Mathlib

/-!
# Verification of the hive-food order-session core

Shallow embedding of `src/app/main.py` (and the data model of
`src/app/models.py`): the session editability policy, the item
create/edit/delete handlers, the session close handler, the per-person
summary aggregation, the order transcript line formatting and the CSV
export rows.  Timestamps are modelled as `Int` (the clock `now_utc()` is
passed explicitly), prices as `ℚ`, and the database as an explicit
`Store` of lists; each HTTP handler becomes a pure function from the
store and the form fields to `Except Err Store`.
-/

namespace HiveFood

/-- Model of `models.User` (the fields the core reads). -/
structure User where
  id : Nat
  email : String
  full_name : String
  is_admin : Bool
  deriving Repr, DecidableEq

/-- Model of `models.MenuItem` (the fields the core reads). -/
structure MenuItem where
  id : Nat
  restaurant_id : Nat
  name : String
  price_eur : Option ℚ
  deriving Repr, DecidableEq

/-- Model of `models.OrderSession` (the fields the core reads). -/
structure OrderSession where
  id : Nat
  title : String
  restaurant : String
  deadline_at : Int
  status : String
  created_by_user_id : Nat
  closed_at : Option Int
  deriving Repr, DecidableEq

/-- Model of `models.OrderItem`. -/
structure OrderItem where
  id : Nat
  session_id : Nat
  user_id : Nat
  item_name : String
  quantity : Int
  price_eur : Option ℚ
  notes : Option String
  created_at : Int
  updated_at : Int
  deriving Repr, DecidableEq

/-- The backing database: `session.get`/`select` act on these lists.
Items are kept in creation order (handlers append at the end). -/
structure Store where
  users : List User
  menu_items : List MenuItem
  sessions : List OrderSession
  items : List OrderItem
  deriving Repr, DecidableEq

def findUser (users : List User) (uid : Nat) : Option User :=
  users.find? (fun u => u.id == uid)

def findMenuItem (mis : List MenuItem) (mid : Nat) : Option MenuItem :=
  mis.find? (fun mi => mi.id == mid)

def findSession (ss : List OrderSession) (sid : Nat) : Option OrderSession :=
  ss.find? (fun s => s.id == sid)

def findItem (its : List OrderItem) (iid : Nat) : Option OrderItem :=
  its.find? (fun it => it.id == iid)

/-- Translation of `main.is_session_editable` (main.py lines 75-78); the clock
`now_utc()` is the explicit `now` argument. -/
def is_session_editable (s : OrderSession) (now : Int) : Bool :=
  if s.status ≠ "open" then false
  else decide (now ≤ s.deadline_at)

/-- Python `float(price_eur)` restricted to plain decimal literals
(optional sign, digits, optional fractional part, surrounded by
optional whitespace).  Exponents, `inf`/`nan` and digit underscores
are not modelled; no input in scope uses them. -/
def pyFloat? (s : String) : Option ℚ :=
  let cs := s.trim.toList
  let signAndRest : ℚ × List Char :=
    match cs with
    | '-' :: rest => (-1, rest)
    | '+' :: rest => (1, rest)
    | _ => (1, cs)
  let sign := signAndRest.1
  let cs1 := signAndRest.2
  let ip := cs1.takeWhile Char.isDigit
  let rest1 := cs1.dropWhile Char.isDigit
  let digitsVal : List Char → Nat :=
    fun l => l.foldl (fun a c => 10 * a + (c.toNat - 48)) 0
  match rest1 with
  | [] =>
      if ip.isEmpty then none
      else some (sign * (digitsVal ip : ℚ))
  | '.' :: rest2 =>
      let fp := rest2.takeWhile Char.isDigit
      let rest3 := rest2.dropWhile Char.isDigit
      if rest3.isEmpty && !(ip.isEmpty && fp.isEmpty) then
        some (sign * ((digitsVal ip : ℚ) + (digitsVal fp : ℚ) / (10 ^ fp.length : ℚ)))
      else none
  | _ => none

/-- Python `(notes.strip() or None)`. -/
def stripOrNone (s : String) : Option String :=
  if s.trim = "" then none else some s.trim

/-- The typed failures a handler can return (the HTTP error responses
of the item/session routes). -/
inductive Err where
  | notFound        -- "Not found" / "Session not found", 404
  | locked          -- "Locked", 400 (SessionLockedError)
  | notAllowed      -- "Not allowed", 403 (AuthorizationError)
  | missingSelection  -- "Please select a menu item or type an item name."
  | invalidPrice      -- "Price must be a number (e.g., 9.50)."
  deriving Repr, DecidableEq

deriving instance DecidableEq for Except

/-- The store a caller holds after a handler ran: the new store on
success, the old one unchanged on any error (no partial write). -/
def applyResult (st : Store) : Except Err Store → Store
  | .ok st' => st'
  | .error _ => st

/-- The row `item_create` appends (main.py lines 582-589):
`created_at = updated_at = now`, quantity clamped by `max(1, int(quantity))`,
notes via `(notes.strip() or None)`. -/
def new_item (newId session_id user_id : Nat) (item_name : String)
    (quantity : Int) (price_val : Option ℚ) (notes : String) (now : Int) :
    OrderItem :=
  { id := newId
    session_id := session_id
    user_id := user_id
    item_name := item_name
    quantity := max 1 quantity
    price_eur := price_val
    notes := stripOrNone notes
    created_at := now
    updated_at := now }

/-- Menu-item resolution of `item_create` (main.py lines 539-548):
resolved name and default price, starting from the trimmed free-text
name and overridden by the selected menu item when it resolves. -/
def resolve_selection (st : Store) (menu_item_id : Option Nat) (item_name : String) :
    String × Option ℚ :=
  match menu_item_id with
  | some mid =>
    match findMenuItem st.menu_items mid with
    | some mi =>
      (mi.name, match mi.price_eur with | some p => some p | none => none)
    | none => (item_name.trim, none)
  | none => (item_name.trim, none)

/-- Price-override step shared by `item_create` (lines 564-580) and
`item_edit` (lines 652-662): a non-blank price string must parse via
`float(...)` or the request fails; a blank one keeps the default
(`item_edit` passes `None` as the default). -/
def parse_price (price_eur : String) (dflt : Option ℚ) : Except Err (Option ℚ) :=
  if price_eur.trim ≠ "" then
    match pyFloat? price_eur with
    | some v => .ok (some v)
    | none => .error .invalidPrice
  else .ok dflt

/-- Translation of `main.item_create` (main.py lines 518-594).  `menu_item_id` is the
already-parsed menu selection: `none` stands for the form values `""`
and `"custom"`.  `newId` is the fresh primary key the database would
assign. -/
def item_create (st : Store) (user : User) (session_id : Nat)
    (menu_item_id : Option Nat) (item_name : String) (quantity : Int)
    (price_eur : String) (notes : String) (now : Int) (newId : Nat) :
    Except Err Store :=
  match findSession st.sessions session_id with
  | none => .error .notFound
  | some s =>
    if ¬ is_session_editable s now then .error .locked
    else if (resolve_selection st menu_item_id item_name).1 = "" then
      .error .missingSelection
    else
      match parse_price price_eur (resolve_selection st menu_item_id item_name).2 with
      | .error e => .error e
      | .ok price_val =>
        .ok { st with items := st.items ++
                [new_item newId session_id user.id
                  (resolve_selection st menu_item_id item_name).1 quantity price_val notes now] }

/-- The in-place field update of `item_edit` (main.py lines 664-668),
applied to the row whose primary key matches. -/
def apply_edit (item_id : Nat) (item_name : String) (quantity : Int)
    (price_val : Option ℚ) (notes : String) (now : Int) (it : OrderItem) :
    OrderItem :=
  if it.id = item_id then
    { it with
        item_name := item_name.trim
        quantity := max 1 quantity
        price_eur := price_val
        notes := stripOrNone notes
        updated_at := now }
  else it

/-- Translation of `main.item_edit` (main.py lines 628-672). -/
def item_edit (st : Store) (user : User) (session_id item_id : Nat)
    (item_name : String) (quantity : Int) (price_eur : String)
    (notes : String) (now : Int) : Except Err Store :=
  match findSession st.sessions session_id, findItem st.items item_id with
  | some s, some item =>
    if item.session_id ≠ session_id then .error .notFound
    else if ¬ is_session_editable s now then .error .locked
    else if ¬ (user.is_admin ∨ item.user_id = user.id) then .error .notAllowed
    else
      match parse_price price_eur none with
      | .error e => .error e
      | .ok price_val =>
        .ok { st with
                items := st.items.map (apply_edit item_id item_name quantity price_val notes now) }
  | _, _ => .error .notFound

/-- Translation of `main.item_delete` (main.py lines 674-693). -/
def item_delete (st : Store) (user : User) (session_id item_id : Nat) (now : Int) :
    Except Err Store :=
  match findSession st.sessions session_id, findItem st.items item_id with
  | some s, some item =>
    if item.session_id ≠ session_id then .error .notFound
    else if ¬ is_session_editable s now then .error .locked
    else if ¬ (user.is_admin ∨ item.user_id = user.id) then .error .notAllowed
    else .ok { st with items := st.items.filter (fun it => it.id ≠ item_id) }
  | _, _ => .error .notFound

/-- Translation of `main.session_close` (main.py lines 461-478): stamps
`status = "closed"` and `closed_at = now_utc()` unconditionally after
the ownership check (no test that the session is still open). -/
def session_close (st : Store) (user : User) (session_id : Nat) (now : Int) :
    Except Err Store :=
  match findSession st.sessions session_id with
  | none => .error .notFound
  | some s =>
    if ¬ (user.is_admin ∨ user.id = s.created_by_user_id) then .error .notAllowed
    else
      .ok { st with
              sessions := st.sessions.map (fun t =>
                if t.id = session_id then
                  { t with status := "closed", closed_at := some now }
                else t) }

/-! ## Aggregator: per-person totals (`main.summary_partial`, lines 728-767) -/

/-- One value of the Python `totals_map` dict. -/
structure PersonTotal where
  full_name : String
  email : String
  count : Int
  subtotal : ℚ
  deriving Repr, DecidableEq

/-- Association-list lookup, first match (`totals_map[key]`). -/
def lookupT (uid : Nat) : List (Nat × PersonTotal) → Option PersonTotal
  | [] => none
  | (k, e) :: rest => if k = uid then some e else lookupT uid rest

/-- Contribution of one item to its submitter's subtotal:
`float(it.price_eur) * int(it.quantity)` when priced, else nothing. -/
def priceContrib (it : OrderItem) : ℚ :=
  match it.price_eur with
  | some p => p * it.quantity
  | none => 0

/-- The `+=` lines of the `summary_partial` loop applied to an
existing entry. -/
def bumpE (it : OrderItem) (e : PersonTotal) : PersonTotal :=
  { e with count := e.count + it.quantity, subtotal := e.subtotal + priceContrib it }

/-- A fresh `totals_map` entry (`count: 0, subtotal: 0.0`) immediately
bumped by the item that created it. -/
def newE (u : User) (it : OrderItem) : PersonTotal :=
  { full_name := u.full_name, email := u.email,
    count := 0 + it.quantity, subtotal := 0 + priceContrib it }

/-- One iteration of the `for it in items` loop of `summary_partial`:
create or bump the submitter's entry (Python dicts keep insertion
order, so a fresh key is appended at the end). -/
def tallyItem (u : User) (it : OrderItem) :
    List (Nat × PersonTotal) → List (Nat × PersonTotal)
  | [] => [(u.id, newE u it)]
  | (k, e) :: rest =>
      if k = u.id then (k, bumpE it e) :: rest
      else (k, e) :: tallyItem u it rest

/-- The whole loop: items whose submitter is not in `users` are
skipped (`if not u: continue`). -/
def buildTotals (users : List User) (items : List OrderItem)
    (acc : List (Nat × PersonTotal)) : List (Nat × PersonTotal) :=
  match items with
  | [] => acc
  | it :: rest =>
    match findUser users it.user_id with
    | none => buildTotals users rest acc
    | some u => buildTotals users rest (tallyItem u it acc)

/-- The sort key `x["full_name"].lower()`. -/
def totKey (e : Nat × PersonTotal) : String := e.2.full_name.toLower

/-- Stable insertion into a list sorted ascending by `totKey`
(a later-inserted element lands after equal keys, matching Python's
stable `list.sort`). -/
def insertT (a : Nat × PersonTotal) : List (Nat × PersonTotal) → List (Nat × PersonTotal)
  | [] => [a]
  | b :: bs => if totKey a < totKey b then a :: b :: bs else b :: insertT a bs

/-- Translation of `totals.sort(key=lambda x: x["full_name"].lower())`. -/
def sortTotals (l : List (Nat × PersonTotal)) : List (Nat × PersonTotal) :=
  l.foldl (fun acc a => insertT a acc) []

/-- Value of `summary_partial`'s `totals` list, with each entry tagged by the
dict key (the submitter's user id). -/
def totals_by_person (items : List OrderItem) (users : List User) :
    List (Nat × PersonTotal) :=
  sortTotals (buildTotals users items [])

/-- Translation of `grand_total = sum(t["subtotal"] for t in totals)`. -/
def grand_total (totals : List (Nat × PersonTotal)) : ℚ :=
  (totals.map (fun t => t.2.subtotal)).sum

/-- Translation of `grand_count = sum(t["count"] for t in totals)`. -/
def grand_count (totals : List (Nat × PersonTotal)) : Int :=
  (totals.map (fun t => t.2.count)).sum

/-! ## Transcript (`main.order_text_partial`, lines 769-811) -/

/-- Python `str` of the stored quantity. -/
def intStr (n : Int) : String := toString n

/-- One item line of the transcript loop (main.py lines 800-802):
`note = f" ({it.notes})" if it.notes else ""` (Python truthiness: both
`None` and `""` are falsy) and
`qty = f"{it.quantity}x " if it.quantity != 1 else ""`. -/
def item_line (it : OrderItem) : String :=
  let note := match it.notes with
              | some n => if n ≠ "" then " (" ++ n ++ ")" else ""
              | none => ""
  let qty := if it.quantity ≠ 1 then intStr it.quantity ++ "x " else ""
  "  - " ++ qty ++ it.item_name ++ note

/-- Translation of `by_person.setdefault(name, []).append(it)`: append `it` to the
group of `name`, creating the group at the end on first sight. -/
def addToGroup (name : String) (it : OrderItem) :
    List (String × List OrderItem) → List (String × List OrderItem)
  | [] => [(name, [it])]
  | (k, its) :: rest =>
      if k = name then (k, its ++ [it]) :: rest
      else (k, its) :: addToGroup name it rest

/-- The grouping loop of `order_text_partial` (fallback label
`"User {id}"` for an unresolvable submitter). -/
def groupByPerson (users : List User) (items : List OrderItem)
    (acc : List (String × List OrderItem)) : List (String × List OrderItem) :=
  match items with
  | [] => acc
  | it :: rest =>
    let name := match findUser users it.user_id with
                | some u => u.full_name
                | none => "User " ++ toString it.user_id
    groupByPerson users rest (addToGroup name it acc)

/-- Stable insertion by the key `x.lower()` used in
`sorted(by_person.keys(), key=lambda x: x.lower())`. -/
def insertG (a : String × List OrderItem) :
    List (String × List OrderItem) → List (String × List OrderItem)
  | [] => [a]
  | b :: bs => if a.1.toLower < b.1.toLower then a :: b :: bs else b :: insertG a bs

def sortGroups (l : List (String × List OrderItem)) : List (String × List OrderItem) :=
  l.foldl (fun acc a => insertG a acc) []

/-- Rendering `utils.fmt_dt` of a timestamp, kept abstract: the claims
never inspect the formatted deadline. -/
def fmt_dt (t : Int) : String := "t" ++ toString t

/-- Value of `order_text_partial`'s `text` value: header, deadline/status line,
blank line, then per person a header and one `item_line` per item in
creation order, blocks separated by a blank line; finally
`"\n".join(lines).strip()`. -/
def order_text (s : OrderSession) (items : List OrderItem) (users : List User) : String :=
  let groups := sortGroups (groupByPerson users items [])
  let personLines := groups.flatMap (fun g =>
    (g.1 ++ ":") :: (g.2.map item_line) ++ [""])
  let lines := (s.title ++ " — " ++ s.restaurant)
    :: ("Deadline: " ++ fmt_dt s.deadline_at ++ " | Status: " ++ s.status)
    :: ""
    :: personLines
  (String.intercalate "\n" lines).trim

/-! ## CSV export (`main.export_csv`, lines 813-850) -/

/-- Round half-to-even to the nearest integer (the tie rule of binary
floating-point formatting). -/
def rhe (q : ℚ) : Int :=
  let f := q.floor
  let r := q - f
  if r < 1/2 then f
  else if 1/2 < r then f + 1
  else if f % 2 = 0 then f else f + 1

/-- Two-digit rendering of `m % 100`. -/
def twoDig (m : Nat) : String :=
  String.mk [Nat.digitChar (m / 10 % 10), Nat.digitChar (m % 10)]

/-- Python `f"{x:.2f}"` on the modelled rational price: round to two
decimals (half-to-even) and print with exactly two fractional digits. -/
def fmt2 (q : ℚ) : String :=
  let n := rhe (q * 100)
  let sign := if n < 0 then "-" else ""
  let a := n.natAbs
  sign ++ toString (a / 100) ++ "." ++ twoDig a

/-- Translation of the `csv.writer` field quoting (QUOTE_MINIMAL): quote a field holding
a delimiter, quote char or CR/LF, doubling inner quotes. -/
def csvField (s : String) : String :=
  if s.toList.any (fun c => c = ',' ∨ c = '"' ∨ c = '\r' ∨ c = '\n') then
    "\"" ++ String.mk (s.toList.flatMap (fun c => if c = '"' then ['"', '"'] else [c])) ++ "\""
  else s

/-- The six cells of one detail row of `export_csv` (lines 836-845),
before CSV quoting/joining. -/
def csv_detail_fields (users : List User) (it : OrderItem) : List String :=
  let u := findUser users it.user_id
  [ (match u with | some u => u.full_name | none => ""),
    (match u with | some u => u.email | none => ""),
    it.item_name,
    intStr it.quantity,
    (match it.price_eur with | some p => fmt2 p | none => ""),
    (it.notes.getD "") ]

/-- One detail row as the CSV writer emits it (without the trailing
line terminator). -/
def csv_detail_row (users : List User) (it : OrderItem) : String :=
  String.intercalate "," ((csv_detail_fields users it).map csvField)

/-- Formatting of one transcript item line as the spec words it: the
quantity prefix is omitted exactly when the quantity equals 1, and the
note suffix exactly when the note is empty. -/
def spec_item_line (quantity : Int) (name note : String) : String :=
  "  - " ++ (if quantity = 1 then "" else intStr quantity ++ "x ")
    ++ name ++ (if note = "" then "" else " (" ++ note ++ ")")

/-- Quantity total of one submitter's items, as the spec words it. -/
def sum_qty (uid : Nat) (items : List OrderItem) : Int :=
  ((items.filter (fun it => it.user_id == uid)).map (fun it => it.quantity)).sum

/-- Price total of one submitter's items, as the spec words it:
`price * quantity` over priced items, unpriced items contributing 0. -/
def sum_price (uid : Nat) (items : List OrderItem) : ℚ :=
  ((items.filter (fun it => it.user_id == uid)).map priceContrib).sum

/-- Keys of a totals association list. -/
def keysOf (l : List (Nat × PersonTotal)) : List Nat := l.map (fun e => e.1)

/-- Ascending order of totals rows under the sort key of
`summary_partial` (case-insensitive display name). -/
def totLE (a b : Nat × PersonTotal) : Prop := ¬ (totKey b < totKey a)

/-! ## Claim theorems and helper lemmas -/

/-- Normal form of `item_edit` once the target resolves, the session
is editable and the actor is authorized: only price validation
remains. -/
theorem item_edit_unlocked (st : Store) (user : User) (sid iid : Nat)
    (nm : String) (q : Int) (pr nt : String) (now : Int)
    (s : OrderSession) (item : OrderItem)
    (hs : findSession st.sessions sid = some s)
    (hit : findItem st.items iid = some item)
    (hsid : item.session_id = sid)
    (hed : is_session_editable s now = true)
    (hauth : user.is_admin = true ∨ item.user_id = user.id) :
    item_edit st user sid iid nm q pr nt now =
      if pr.trim ≠ "" then
        match pyFloat? pr with
        | some v =>
            .ok { st with items := st.items.map (apply_edit iid nm q (some v) nt now) }
        | none => .error .invalidPrice
      else
        .ok { st with items := st.items.map (apply_edit iid nm q none nt now) } := by
  unfold item_edit
  rw [hs, hit]
  by_cases hb : pr.trim = ""
  · simp [hsid, hed, hauth, hb, parse_price]
  · cases hp : pyFloat? pr <;> simp [hsid, hed, hauth, hb, hp, parse_price]

/-- Normal form of `item_create` for a custom (non-menu) selection
with a non-blank name, in an editable session: only price validation
remains. -/
theorem item_create_custom (st : Store) (user : User) (sid : Nat)
    (nm : String) (q : Int) (pr nt : String) (now : Int) (newId : Nat)
    (s : OrderSession)
    (hs : findSession st.sessions sid = some s)
    (hed : is_session_editable s now = true)
    (hnm : nm.trim ≠ "") :
    item_create st user sid none nm q pr nt now newId =
      if pr.trim ≠ "" then
        match pyFloat? pr with
        | some v =>
            .ok { st with
                    items := st.items ++ [new_item newId sid user.id nm.trim q (some v) nt now] }
        | none => .error .invalidPrice
      else
        .ok { st with
                items := st.items ++ [new_item newId sid user.id nm.trim q none nt now] } := by
  unfold item_create
  rw [hs]
  by_cases hb : pr.trim = ""
  · simp [hed, hnm, hb, parse_price, resolve_selection]
  · cases hp : pyFloat? pr <;> simp [hed, hnm, hb, hp, parse_price, resolve_selection]

/-- C1: `is_session_editable` returns true iff the session's status is
`"open"` and the current time is at or before the deadline; in
particular it is false for every session with status `"closed"`,
regardless of the deadline. -/
theorem is_session_editable_iff :
    (∀ (s : OrderSession) (now : Int),
        is_session_editable s now = true ↔ s.status = "open" ∧ now ≤ s.deadline_at)
    ∧ (∀ (s : OrderSession) (now : Int), s.status = "closed" →
        is_session_editable s now = false) := by
  constructor
  · intro s now
    unfold is_session_editable
    by_cases h : s.status = "open" <;> simp [h]
  · intro s now h
    unfold is_session_editable
    simp [h]

/-- Witness for C1: a concrete closed session is not editable even
well before its deadline. -/
theorem is_session_editable_iff_witness :
    is_session_editable ⟨1, "Lunch", "Pizza Place", 100, "closed", 1, none⟩ 0 = false :=
  is_session_editable_iff.2 ⟨1, "Lunch", "Pizza Place", 100, "closed", 1, none⟩ 0 rfl

/-- C2: when the target session fails the editability check, item
creation, update and deletion all fail with the session-locked error
for every actor (administrators included), and the store the caller
holds is unchanged — the failure precedes any write. -/
theorem locked_blocks_mutations :
    ∀ (st : Store) (user : User) (sid : Nat) (s : OrderSession) (now : Int),
      findSession st.sessions sid = some s →
      is_session_editable s now = false →
      (∀ ms nm q pr nt newId,
          item_create st user sid ms nm q pr nt now newId = .error .locked
          ∧ applyResult st (item_create st user sid ms nm q pr nt now newId) = st)
      ∧ (∀ iid item nm q pr nt,
          findItem st.items iid = some item → item.session_id = sid →
          item_edit st user sid iid nm q pr nt now = .error .locked
          ∧ applyResult st (item_edit st user sid iid nm q pr nt now) = st)
      ∧ (∀ iid item,
          findItem st.items iid = some item → item.session_id = sid →
          item_delete st user sid iid now = .error .locked
          ∧ applyResult st (item_delete st user sid iid now) = st) := by
  intro st user sid s now hs hlock
  refine ⟨?_, ?_, ?_⟩
  · intro ms nm q pr nt newId
    have h : item_create st user sid ms nm q pr nt now newId = .error .locked := by
      unfold item_create
      rw [hs]
      simp [hlock]
    exact ⟨h, by rw [h]; rfl⟩
  · intro iid item nm q pr nt hit hsid
    have h : item_edit st user sid iid nm q pr nt now = .error .locked := by
      unfold item_edit
      rw [hs, hit]
      simp [hsid, hlock]
    exact ⟨h, by rw [h]; rfl⟩
  · intro iid item hit hsid
    have h : item_delete st user sid iid now = .error .locked := by
      unfold item_delete
      rw [hs, hit]
      simp [hsid, hlock]
    exact ⟨h, by rw [h]; rfl⟩

/-- Witness for C2: an administrator cannot create an item in a
concrete closed session. -/
theorem locked_blocks_mutations_witness :
    item_create
      ⟨[⟨1, "a@x", "Admin", true⟩], [],
       [⟨1, "Lunch", "Pizza Place", 100, "closed", 1, none⟩], []⟩
      ⟨1, "a@x", "Admin", true⟩ 1 none "Pizza" 1 "" "" 0 2 = .error .locked :=
  ((locked_blocks_mutations _ ⟨1, "a@x", "Admin", true⟩ 1
      ⟨1, "Lunch", "Pizza Place", 100, "closed", 1, none⟩ 0 (by decide) (by decide)).1
    none "Pizza" 1 "" "" 2).1

/-- C3: in an editable session, updating or deleting an item fails
with the authorization error exactly when the editor is neither the
item's submitter nor an administrator; the submitter and any
administrator succeed (delete always, update whenever the price field
validates), and an authorization failure leaves the store unchanged. -/
theorem item_mutation_authorization :
    ∀ (st : Store) (user : User) (sid iid : Nat) (s : OrderSession)
      (item : OrderItem) (now : Int),
      findSession st.sessions sid = some s →
      findItem st.items iid = some item →
      item.session_id = sid →
      is_session_editable s now = true →
      (∀ nm q pr nt,
          (item_edit st user sid iid nm q pr nt now = .error .notAllowed
            ↔ ¬ (user.is_admin = true ∨ item.user_id = user.id))
          ∧ (¬ (user.is_admin = true ∨ item.user_id = user.id) →
              applyResult st (item_edit st user sid iid nm q pr nt now) = st)
          ∧ ((user.is_admin = true ∨ item.user_id = user.id) →
              (pr.trim = "" ∨ (pyFloat? pr).isSome = true) →
              ∃ pv, item_edit st user sid iid nm q pr nt now =
                .ok { st with items := st.items.map (apply_edit iid nm q pv nt now) }))
      ∧ ((item_delete st user sid iid now = .error .notAllowed
            ↔ ¬ (user.is_admin = true ∨ item.user_id = user.id))
          ∧ (¬ (user.is_admin = true ∨ item.user_id = user.id) →
              applyResult st (item_delete st user sid iid now) = st)
          ∧ ((user.is_admin = true ∨ item.user_id = user.id) →
              item_delete st user sid iid now =
                .ok { st with items := st.items.filter (fun it => it.id ≠ iid) })) := by
  intro st user sid iid s item now hs hit hsid hed
  constructor
  · intro nm q pr nt
    by_cases hauth : user.is_admin = true ∨ item.user_id = user.id
    · have hnf := item_edit_unlocked st user sid iid nm q pr nt now s item hs hit hsid hed hauth
      have hne : item_edit st user sid iid nm q pr nt now ≠ .error .notAllowed := by
        rw [hnf]
        by_cases hb : pr.trim = ""
        · simp [hb]
        · cases hp : pyFloat? pr <;> simp [hb, hp]
      refine ⟨⟨fun hcon => absurd hcon hne, fun hc => absurd hauth hc⟩,
              fun hc => absurd hauth hc, fun _ hpr => ?_⟩
      rw [hnf]
      by_cases hb : pr.trim = ""
      · exact ⟨none, by simp [hb]⟩
      · rcases hpr with hpr | hpr
        · exact absurd hpr hb
        · obtain ⟨v, hv⟩ := Option.isSome_iff_exists.mp hpr
          exact ⟨some v, by simp [hb, hv]⟩
    · have h : item_edit st user sid iid nm q pr nt now = .error .notAllowed := by
        unfold item_edit
        rw [hs, hit]
        simp [hsid, hed, hauth]
      exact ⟨by rw [h]; simp [hauth], fun _ => by rw [h]; rfl, fun hc => absurd hc hauth⟩
  · by_cases hauth : user.is_admin = true ∨ item.user_id = user.id
    · have hnf : item_delete st user sid iid now =
          .ok { st with items := st.items.filter (fun it => it.id ≠ iid) } := by
        unfold item_delete
        rw [hs, hit]
        simp [hsid, hed, hauth]
      exact ⟨by rw [hnf]; simp [hauth], fun hc => absurd hauth hc, fun _ => hnf⟩
    · have h : item_delete st user sid iid now = .error .notAllowed := by
        unfold item_delete
        rw [hs, hit]
        simp [hsid, hed, hauth]
      exact ⟨by rw [h]; simp [hauth], fun _ => by rw [h]; rfl, fun hc => absurd hc hauth⟩

/-- Witness for C3: a concrete non-submitter, non-admin editor is
denied deletion of another member's item. -/
theorem item_mutation_authorization_witness :
    item_delete
      ⟨[⟨1, "a@x", "Ana", false⟩, ⟨2, "b@x", "Bea", false⟩], [],
       [⟨1, "Lunch", "Pizza Place", 100, "open", 1, none⟩],
       [⟨1, 1, 1, "Pizza", 1, none, none, 0, 0⟩]⟩
      ⟨2, "b@x", "Bea", false⟩ 1 1 0 = .error .notAllowed :=
  ((item_mutation_authorization _ ⟨2, "b@x", "Bea", false⟩ 1 1
      ⟨1, "Lunch", "Pizza Place", 100, "open", 1, none⟩
      ⟨1, 1, 1, "Pizza", 1, none, none, 0, 0⟩ 0
      (by decide) (by decide) (by decide) (by decide)).2.1).mpr (by decide)

/-- Counterexample for C4: `session_close` never tests the current
status, so an authorized repeated close request overwrites `closed_at`
with the new clock time — it is not assigned exactly once. -/
theorem session_close_restamps_counterexample :
    session_close
      ⟨[⟨1, "a@x", "Admin", true⟩], [],
       [⟨1, "Lunch", "Pizza Place", 100, "open", 1, none⟩], []⟩
      ⟨1, "a@x", "Admin", true⟩ 1 10 =
      .ok ⟨[⟨1, "a@x", "Admin", true⟩], [],
           [⟨1, "Lunch", "Pizza Place", 100, "closed", 1, some 10⟩], []⟩
    ∧ session_close
      ⟨[⟨1, "a@x", "Admin", true⟩], [],
       [⟨1, "Lunch", "Pizza Place", 100, "closed", 1, some 10⟩], []⟩
      ⟨1, "a@x", "Admin", true⟩ 1 20 =
      .ok ⟨[⟨1, "a@x", "Admin", true⟩], [],
           [⟨1, "Lunch", "Pizza Place", 100, "closed", 1, some 20⟩], []⟩
    ∧ (some (20 : Int) ≠ some (10 : Int)) :=
  ⟨by decide, by decide, by decide⟩

/-- C4 (amended): no operation returns a closed session to open — the
close handler always writes status `"closed"` and the item handlers
never modify the sessions — but every authorized close (also a
repeated one) re-stamps `closed_at` with the clock's current time. -/
theorem session_close_transition :
    (∀ (st : Store) (u : User) (sid : Nat) (now : Int) (st' : Store),
        session_close st u sid now = .ok st' →
        st'.sessions = st.sessions.map (fun t =>
          if t.id = sid then { t with status := "closed", closed_at := some now } else t))
    ∧ (∀ st u sid ms nm q pr nt now newId st',
        item_create st u sid ms nm q pr nt now newId = .ok st' →
        st'.sessions = st.sessions)
    ∧ (∀ st u sid iid nm q pr nt now st',
        item_edit st u sid iid nm q pr nt now = .ok st' →
        st'.sessions = st.sessions)
    ∧ (∀ st u sid iid now st',
        item_delete st u sid iid now = .ok st' →
        st'.sessions = st.sessions) := by
  refine ⟨?_, ?_, ?_, ?_⟩
  · intro st u sid now st' h
    unfold session_close at h
    repeat' split at h
    all_goals first
      | (subst h; rfl)
      | (simp only [Except.ok.injEq] at h; subst h; rfl)
      | simp at h
  · intro st u sid ms nm q pr nt now newId st' h
    unfold item_create at h
    repeat' split at h
    all_goals first
      | (subst h; rfl)
      | (simp only [Except.ok.injEq] at h; subst h; rfl)
      | simp at h
  · intro st u sid iid nm q pr nt now st' h
    unfold item_edit at h
    repeat' split at h
    all_goals first
      | (subst h; rfl)
      | (simp only [Except.ok.injEq] at h; subst h; rfl)
      | simp at h
  · intro st u sid iid now st' h
    unfold item_delete at h
    repeat' split at h
    all_goals first
      | (subst h; rfl)
      | (simp only [Except.ok.injEq] at h; subst h; rfl)
      | simp at h

/-- Witness for C4 (amended): the session list after a concrete close
is the mapped update of the one before it. -/
theorem session_close_transition_witness :
    (⟨[⟨1, "a@x", "Admin", true⟩], [],
      [⟨1, "Lunch", "Pizza Place", 100, "closed", 1, some 10⟩], []⟩ : Store).sessions =
    (⟨[⟨1, "a@x", "Admin", true⟩], [],
      [⟨1, "Lunch", "Pizza Place", 100, "open", 1, none⟩], []⟩ : Store).sessions.map
      (fun t => if t.id = 1 then { t with status := "closed", closed_at := some 10 } else t) :=
  session_close_transition.1 _ ⟨1, "a@x", "Admin", true⟩ 1 10 _ (by decide)

/-- Counterexample for C7: the code never checks the sign of a parsed
price — creating an item with price string `"-3.5"` succeeds and
stores the negative price instead of failing with a validation
error. -/
theorem negative_price_accepted_counterexample :
    item_create
      ⟨[⟨1, "a@x", "Ana", false⟩], [],
       [⟨1, "Lunch", "Pizza Place", 100, "open", 1, none⟩], []⟩
      ⟨1, "a@x", "Ana", false⟩ 1 none "Pizza" 1 "-3.5" "" 0 1 =
      .ok ⟨[⟨1, "a@x", "Ana", false⟩], [],
           [⟨1, "Lunch", "Pizza Place", 100, "open", 1, none⟩],
           [⟨1, 1, 1, "Pizza", 1, some (-(7/2) : ℚ), none, 0, 0⟩]⟩
    ∧ (-(7/2) : ℚ) < 0 :=
  ⟨by with_unfolding_all decide, by with_unfolding_all decide⟩

/-- C7 (amended): a supplied non-blank price string must parse as a
decimal number or the create/update fails with the invalid-price
validation error and no write occurs; every parsed value — negative
ones included — is stored as given. -/
theorem price_validation :
    ∀ (st : Store) (user : User) (sid : Nat) (s : OrderSession) (now : Int) (pr : String),
      findSession st.sessions sid = some s →
      is_session_editable s now = true →
      pr.trim ≠ "" →
      (∀ nm q nt newId, nm.trim ≠ "" →
        (pyFloat? pr = none →
          item_create st user sid none nm q pr nt now newId = .error .invalidPrice
          ∧ applyResult st (item_create st user sid none nm q pr nt now newId) = st)
        ∧ (∀ v, pyFloat? pr = some v →
            item_create st user sid none nm q pr nt now newId =
              .ok { st with
                      items := st.items ++ [new_item newId sid user.id nm.trim q (some v) nt now] }))
      ∧ (∀ iid item nm q nt,
          findItem st.items iid = some item → item.session_id = sid →
          (user.is_admin = true ∨ item.user_id = user.id) →
          (pyFloat? pr = none →
            item_edit st user sid iid nm q pr nt now = .error .invalidPrice
            ∧ applyResult st (item_edit st user sid iid nm q pr nt now) = st)
          ∧ (∀ v, pyFloat? pr = some v →
              item_edit st user sid iid nm q pr nt now =
                .ok { st with items := st.items.map (apply_edit iid nm q (some v) nt now) })) := by
  intro st user sid s now pr hs hed hpr
  constructor
  · intro nm q nt newId hnm
    have hnf := item_create_custom st user sid nm q pr nt now newId s hs hed hnm
    constructor
    · intro hp
      have h : item_create st user sid none nm q pr nt now newId = .error .invalidPrice := by
        rw [hnf]
        simp [hpr, hp]
      exact ⟨h, by rw [h]; rfl⟩
    · intro v hp
      rw [hnf]
      simp [hpr, hp]
  · intro iid item nm q nt hit hsid hauth
    have hnf := item_edit_unlocked st user sid iid nm q pr nt now s item hs hit hsid hed hauth
    constructor
    · intro hp
      have h : item_edit st user sid iid nm q pr nt now = .error .invalidPrice := by
        rw [hnf]
        simp [hpr, hp]
      exact ⟨h, by rw [h]; rfl⟩
    · intro v hp
      rw [hnf]
      simp [hpr, hp]

/-- Witness for C7 (amended): a concrete unparsable price string is
rejected with the invalid-price error. -/
theorem price_validation_witness :
    item_create
      ⟨[⟨1, "a@x", "Ana", false⟩], [],
       [⟨1, "Lunch", "Pizza Place", 100, "open", 1, none⟩], []⟩
      ⟨1, "a@x", "Ana", false⟩ 1 none "Pizza" 1 "abc" "" 0 1 = .error .invalidPrice :=
  (((price_validation _ ⟨1, "a@x", "Ana", false⟩ 1
      ⟨1, "Lunch", "Pizza Place", 100, "open", 1, none⟩ 0 "abc"
      (by decide) (by decide) (by with_unfolding_all decide)).1 "Pizza" 1 "" 1
      (by with_unfolding_all decide)).1 (by with_unfolding_all decide)).1

/-- Digit characters printed by `Nat.digitChar` below 10 are decimal
digits. -/
theorem digitChar_isDigit (m : Nat) (h : m < 10) : (Nat.digitChar m).isDigit = true := by
  interval_cases m <;> rfl

/-- C8: a supplied quantity below 1 is stored as 1 and a quantity of 1
or more is stored unchanged (`max(1, int(quantity))`), and no quantity
value is rejected: create and edit return an error for a given
quantity exactly when they do for quantity 1. -/
theorem quantity_clamping :
    (∀ (st : Store) (user : User) (sid : Nat) ms nm (q : Int) pr nt (now : Int) newId e,
        item_create st user sid ms nm q pr nt now newId = .error e ↔
        item_create st user sid ms nm 1 pr nt now newId = .error e)
    ∧ (∀ (st : Store) (user : User) (sid iid : Nat) nm (q : Int) pr nt (now : Int) e,
        item_edit st user sid iid nm q pr nt now = .error e ↔
        item_edit st user sid iid nm 1 pr nt now = .error e)
    ∧ (∀ (st : Store) (user : User) (sid : Nat) ms nm (q : Int) pr nt (now : Int) newId st',
        item_create st user sid ms nm q pr nt now newId = .ok st' →
        ∃ it : OrderItem, st'.items = st.items ++ [it] ∧ it.quantity = max 1 q)
    ∧ (∀ (st : Store) (user : User) (sid iid : Nat) nm (q : Int) pr nt (now : Int) st',
        item_edit st user sid iid nm q pr nt now = .ok st' →
        ∃ pv, st'.items = st.items.map (apply_edit iid nm q pv nt now))
    ∧ (∀ (iid : Nat) nm (q : Int) pv nt (now : Int) (it : OrderItem), it.id = iid →
        (apply_edit iid nm q pv nt now it).quantity = max 1 q)
    ∧ (∀ q : Int, (q < 1 → max 1 q = 1) ∧ (1 ≤ q → max 1 q = q)) := by
  refine ⟨?_, ?_, ?_, ?_, ?_, ?_⟩
  · intro st user sid ms nm q pr nt now newId e
    unfold item_create
    repeat' split
    all_goals simp
  · intro st user sid iid nm q pr nt now e
    unfold item_edit
    repeat' split
    all_goals simp
  · intro st user sid ms nm q pr nt now newId st' h
    unfold item_create at h
    repeat' split at h
    all_goals first
      | (subst h; exact ⟨_, rfl, rfl⟩)
      | (simp only [Except.ok.injEq] at h; subst h; exact ⟨_, rfl, rfl⟩)
      | simp at h
  · intro st user sid iid nm q pr nt now st' h
    unfold item_edit at h
    repeat' split at h
    all_goals first
      | (subst h; exact ⟨_, rfl⟩)
      | (simp only [Except.ok.injEq] at h; subst h; exact ⟨_, rfl⟩)
      | simp at h
  · intro iid nm q pv nt now it hid
    unfold apply_edit
    simp [hid]
  · intro q
    constructor <;> intro h <;> omega

/-- Witness for C8: creating with quantity -2 succeeds exactly like
quantity 1 and the stored row carries quantity 1. -/
theorem quantity_clamping_witness :
    (item_create
        ⟨[⟨1, "a@x", "Ana", false⟩], [],
         [⟨1, "Lunch", "Pizza Place", 100, "open", 1, none⟩], []⟩
        ⟨1, "a@x", "Ana", false⟩ 1 none "Pizza" (-2) "" "" 0 1 = .error .locked ↔
     item_create
        ⟨[⟨1, "a@x", "Ana", false⟩], [],
         [⟨1, "Lunch", "Pizza Place", 100, "open", 1, none⟩], []⟩
        ⟨1, "a@x", "Ana", false⟩ 1 none "Pizza" 1 "" "" 0 1 = .error .locked)
    ∧ max 1 (-2 : Int) = 1 :=
  ⟨quantity_clamping.1 _ ⟨1, "a@x", "Ana", false⟩ 1 none "Pizza" (-2) "" "" 0 1 .locked,
   (quantity_clamping.2.2.2.2.2 (-2)).1 (by decide)⟩

/-- C10: an update whose price field is blank or whitespace-only
stores `None` as the price — erasing any previously stored price —
while name, quantity and notes are set from the form and `updated_at`
becomes the current time. -/
theorem blank_price_erases_price :
    ∀ (st : Store) (user : User) (sid iid : Nat) (s : OrderSession)
      (item : OrderItem) (nm : String) (q : Int) (pr nt : String) (now : Int),
      findSession st.sessions sid = some s →
      findItem st.items iid = some item →
      item.session_id = sid →
      is_session_editable s now = true →
      (user.is_admin = true ∨ item.user_id = user.id) →
      pr.trim = "" →
      item_edit st user sid iid nm q pr nt now =
        .ok { st with items := st.items.map (apply_edit iid nm q none nt now) }
      ∧ apply_edit iid nm q none nt now item =
          { item with
              item_name := nm.trim
              quantity := max 1 q
              price_eur := none
              notes := stripOrNone nt
              updated_at := now } := by
  intro st user sid iid s item nm q pr nt now hs hit hsid hed hauth hb
  have hid : item.id = iid := by simpa using List.find?_some hit
  constructor
  · have hnf := item_edit_unlocked st user sid iid nm q pr nt now s item hs hit hsid hed hauth
    rw [hnf]
    simp [hb]
  · unfold apply_edit
    simp [hid]

/-- Witness for C10: a concrete edit with a whitespace price field
erases the previously stored price 5. -/
theorem blank_price_erases_price_witness :
    item_edit
      ⟨[⟨1, "a@x", "Ana", false⟩], [],
       [⟨1, "Lunch", "Pizza Place", 100, "open", 1, none⟩],
       [⟨1, 1, 1, "Pizza", 1, some 5, none, 0, 0⟩]⟩
      ⟨1, "a@x", "Ana", false⟩ 1 1 "Calzone" 2 "  " "" 7 =
      .ok ⟨[⟨1, "a@x", "Ana", false⟩], [],
           [⟨1, "Lunch", "Pizza Place", 100, "open", 1, none⟩],
           List.map (apply_edit 1 "Calzone" 2 none "" 7)
             [⟨1, 1, 1, "Pizza", 1, some 5, none, 0, 0⟩]⟩ :=
  (blank_price_erases_price _ ⟨1, "a@x", "Ana", false⟩ 1 1
      ⟨1, "Lunch", "Pizza Place", 100, "open", 1, none⟩
      ⟨1, 1, 1, "Pizza", 1, some 5, none, 0, 0⟩ "Calzone" 2 "  " "" 7
      (by with_unfolding_all decide) (by with_unfolding_all decide)
      (by with_unfolding_all decide) (by with_unfolding_all decide)
      (by with_unfolding_all decide) (by with_unfolding_all decide)).1

/-- C9: the CSV detail-row price cell is the price formatted with
exactly two decimal digits when present and empty otherwise, the name
and email cells are populated exactly when the submitter resolves, and
the spec's scenario row prints as `Ana,,Margherita,2,8.00,`. -/
theorem csv_detail_row_correct :
    (∀ q : ℚ, ∃ c1 c2 : Char,
        fmt2 q = (if rhe (q * 100) < 0 then "-" else "")
            ++ toString ((rhe (q * 100)).natAbs / 100) ++ "." ++ String.mk [c1, c2]
        ∧ c1.isDigit = true ∧ c2.isDigit = true)
    ∧ (∀ users it p, it.price_eur = some p →
        (csv_detail_fields users it).get? 4 = some (fmt2 p))
    ∧ (∀ users it, it.price_eur = none →
        (csv_detail_fields users it).get? 4 = some "")
    ∧ (∀ users it u, findUser users it.user_id = some u →
        (csv_detail_fields users it).get? 0 = some u.full_name
        ∧ (csv_detail_fields users it).get? 1 = some u.email)
    ∧ (∀ users it, findUser users it.user_id = none →
        (csv_detail_fields users it).get? 0 = some ""
        ∧ (csv_detail_fields users it).get? 1 = some "")
    ∧ csv_detail_row [⟨7, "", "Ana", false⟩] ⟨1, 1, 7, "Margherita", 2, some 8, none, 0, 0⟩
        = "Ana,,Margherita,2,8.00," := by
  refine ⟨?_, ?_, ?_, ?_, ?_, by with_unfolding_all decide⟩
  · intro q
    refine ⟨Nat.digitChar ((rhe (q * 100)).natAbs / 10 % 10),
            Nat.digitChar ((rhe (q * 100)).natAbs % 10), rfl, ?_, ?_⟩
    · exact digitChar_isDigit _ (Nat.mod_lt _ (by norm_num))
    · exact digitChar_isDigit _ (Nat.mod_lt _ (by norm_num))
  · intro users it p hp
    simp [csv_detail_fields, hp]
  · intro users it hp
    simp [csv_detail_fields, hp]
  · intro users it u hu
    constructor <;> simp [csv_detail_fields, hu]
  · intro users it hu
    constructor <;> simp [csv_detail_fields, hu]

/-- Witness for C9: an unpriced item of an unknown submitter has empty
price, name and email cells. -/
theorem csv_detail_row_correct_witness :
    (csv_detail_fields [] ⟨1, 1, 7, "Toast", 1, none, none, 0, 0⟩).get? 4 = some ""
    ∧ (csv_detail_fields [] ⟨1, 1, 7, "Toast", 1, none, none, 0, 0⟩).get? 0 = some "" :=
  ⟨csv_detail_row_correct.2.2.1 [] ⟨1, 1, 7, "Toast", 1, none, none, 0, 0⟩ rfl,
   (csv_detail_row_correct.2.2.2.2.1 [] ⟨1, 1, 7, "Toast", 1, none, none, 0, 0⟩ rfl).1⟩

/-- Looking up the tallied submitter after one loop iteration: the
entry is bumped when present, created when absent. -/
theorem tallyItem_lookup_self (u : User) (it : OrderItem) :
    ∀ acc, lookupT u.id (tallyItem u it acc) =
      some (match lookupT u.id acc with
            | some e => bumpE it e
            | none => newE u it) := by
  intro acc
  induction acc with
  | nil => simp [tallyItem, lookupT]
  | cons kv rest ih =>
      obtain ⟨k, e⟩ := kv
      by_cases hk : k = u.id
      · simp [tallyItem, lookupT, hk]
      · simp [tallyItem, lookupT, hk, ih]

/-- Tallying one item leaves every other key's entry unchanged. -/
theorem tallyItem_lookup_other (u : User) (it : OrderItem) (uid : Nat)
    (h : uid ≠ u.id) :
    ∀ acc, lookupT uid (tallyItem u it acc) = lookupT uid acc := by
  have h' : u.id ≠ uid := Ne.symm h
  intro acc
  induction acc with
  | nil => simp [tallyItem, lookupT, h']
  | cons kv rest ih =>
      obtain ⟨k, e⟩ := kv
      by_cases hk : k = u.id
      · subst hk
        simp [tallyItem, lookupT, h', ih]
      · by_cases hku : k = uid
        · subst hku
          simp [tallyItem, lookupT, hk, ih]
        · simp [tallyItem, lookupT, hk, hku, ih]

/-- A resolved user record carries the looked-up id. -/
theorem findUser_id (users : List User) (uid : Nat) (u : User)
    (h : findUser users uid = some u) : u.id = uid := by
  simpa using List.find?_some h

/-- Splitting a submitter's quantity total at the head item. -/
theorem sum_qty_cons (uid : Nat) (it : OrderItem) (rest : List OrderItem) :
    sum_qty uid (it :: rest) =
      (if it.user_id = uid then it.quantity else 0) + sum_qty uid rest := by
  by_cases h : it.user_id = uid <;> simp [sum_qty, h]

/-- Splitting a submitter's price total at the head item. -/
theorem sum_price_cons (uid : Nat) (it : OrderItem) (rest : List OrderItem) :
    sum_price uid (it :: rest) =
      (if it.user_id = uid then priceContrib it else 0) + sum_price uid rest := by
  by_cases h : it.user_id = uid <;> simp [sum_price, h]

/-- The entry of a resolvable submitter after the whole
`summary_partial` loop: absent when they have no items, else their
display name, email and the two running sums. -/
theorem buildTotals_lookup (users : List User) :
    ∀ (items : List OrderItem) (acc : List (Nat × PersonTotal)) (uid : Nat) (u : User),
      findUser users uid = some u →
      lookupT uid (buildTotals users items acc) =
        match lookupT uid acc with
        | some e =>
            some ⟨e.full_name, e.email, e.count + sum_qty uid items,
                  e.subtotal + sum_price uid items⟩
        | none =>
            if items.any (fun it => it.user_id == uid) then
              some ⟨u.full_name, u.email, sum_qty uid items, sum_price uid items⟩
            else none := by
  intro items
  induction items with
  | nil =>
      intro acc uid u hu
      cases he : lookupT uid acc <;>
        simp [buildTotals, sum_qty, sum_price, he]
  | cons it rest ih =>
      intro acc uid u hu
      cases hf : findUser users it.user_id with
      | none =>
          have hne : it.user_id ≠ uid := by
            intro hEq
            rw [hEq, hu] at hf
            cases hf
          have hstep : buildTotals users (it :: rest) acc = buildTotals users rest acc := by
            simp [buildTotals, hf]
          rw [hstep, ih acc uid u hu]
          have h1 : sum_qty uid (it :: rest) = sum_qty uid rest := by
            simp [sum_qty_cons, hne]
          have h2 : sum_price uid (it :: rest) = sum_price uid rest := by
            simp [sum_price_cons, hne]
          have h3 : (it :: rest).any (fun x => x.user_id == uid)
              = rest.any (fun x => x.user_id == uid) := by
            simp [hne]
          rw [h1, h2, h3]
      | some u' =>
          have hid : u'.id = it.user_id := findUser_id users it.user_id u' hf
          have hstep : buildTotals users (it :: rest) acc
              = buildTotals users rest (tallyItem u' it acc) := by
            simp [buildTotals, hf]
          rw [hstep, ih (tallyItem u' it acc) uid u hu]
          by_cases hEq : it.user_id = uid
          · have huu : u' = u := by
              rw [hEq, hu] at hf
              exact (Option.some.inj hf).symm
            have hkey : u'.id = uid := by rw [hid, hEq]
            have hl : lookupT uid (tallyItem u' it acc) =
                some (match lookupT uid acc with
                      | some e => bumpE it e
                      | none => newE u' it) := by
              have hts := tallyItem_lookup_self u' it acc
              rwa [hkey] at hts
            rw [hl]
            cases he : lookupT uid acc with
            | some e =>
                simp only [he, bumpE]
                simp [sum_qty_cons, sum_price_cons, hEq, add_assoc]
            | none =>
                have hany : (it :: rest).any (fun x => x.user_id == uid) = true := by
                  simp [hEq]
                simp only [he, hany, if_true, newE, huu]
                simp [sum_qty_cons, sum_price_cons, hEq, add_assoc]
          · have hkey : uid ≠ u'.id := by
              rw [hid]
              exact fun hh => hEq hh.symm
            rw [tallyItem_lookup_other u' it uid hkey acc]
            have h1 : sum_qty uid (it :: rest) = sum_qty uid rest := by
              simp [sum_qty_cons, hEq]
            have h2 : sum_price uid (it :: rest) = sum_price uid rest := by
              simp [sum_price_cons, hEq]
            have h3 : (it :: rest).any (fun x => x.user_id == uid)
                = rest.any (fun x => x.user_id == uid) := by
              simp [hEq]
            rw [h1, h2, h3]

/-- An unresolvable submitter never gains an entry in the loop. -/
theorem buildTotals_lookup_none (users : List User) :
    ∀ (items : List OrderItem) (acc : List (Nat × PersonTotal)) (uid : Nat),
      findUser users uid = none →
      lookupT uid (buildTotals users items acc) = lookupT uid acc := by
  intro items
  induction items with
  | nil => intro acc uid _; rfl
  | cons it rest ih =>
      intro acc uid hu
      cases hf : findUser users it.user_id with
      | none =>
          have hstep : buildTotals users (it :: rest) acc = buildTotals users rest acc := by
            simp [buildTotals, hf]
          rw [hstep, ih acc uid hu]
      | some u' =>
          have hid : u'.id = it.user_id := findUser_id users it.user_id u' hf
          have hkey : uid ≠ u'.id := by
            intro hh
            rw [hid] at hh
            rw [← hh, hu] at hf
            cases hf
          have hstep : buildTotals users (it :: rest) acc
              = buildTotals users rest (tallyItem u' it acc) := by
            simp [buildTotals, hf]
          rw [hstep, ih (tallyItem u' it acc) uid hu,
              tallyItem_lookup_other u' it uid hkey acc]

/-- Tallying updates an existing key in place or appends the new key
at the end, like a Python dict. -/
theorem tallyItem_keysOf (u : User) (it : OrderItem) :
    ∀ acc, keysOf (tallyItem u it acc) =
      if u.id ∈ keysOf acc then keysOf acc else keysOf acc ++ [u.id] := by
  intro acc
  induction acc with
  | nil => simp [tallyItem, keysOf]
  | cons kv rest ih =>
      obtain ⟨k, e⟩ := kv
      by_cases hk : k = u.id
      · simp [tallyItem, keysOf, hk]
      · have hk' : u.id ≠ k := fun hh => hk hh.symm
        have hstep : keysOf (tallyItem u it ((k, e) :: rest))
            = k :: keysOf (tallyItem u it rest) := by
          simp [tallyItem, keysOf, hk]
        rw [hstep, ih]
        simp only [keysOf]
        by_cases hm : u.id ∈ List.map (fun e : Nat × PersonTotal => e.1) rest
        · simp [hm, hk']
        · simp [hm, hk']

/-- The loop never duplicates a key. -/
theorem tallyItem_keys_nodup (u : User) (it : OrderItem)
    (acc : List (Nat × PersonTotal)) (h : (keysOf acc).Nodup) :
    (keysOf (tallyItem u it acc)).Nodup := by
  rw [tallyItem_keysOf]
  by_cases hm : u.id ∈ keysOf acc
  · simpa [hm] using h
  · simp [hm, List.nodup_append, h]

/-- Keys stay duplicate-free over the whole loop. -/
theorem buildTotals_keys_nodup (users : List User) :
    ∀ (items : List OrderItem) (acc : List (Nat × PersonTotal)),
      (keysOf acc).Nodup → (keysOf (buildTotals users items acc)).Nodup := by
  intro items
  induction items with
  | nil => intro acc h; exact h
  | cons it rest ih =>
      intro acc h
      cases hf : findUser users it.user_id with
      | none => simpa [buildTotals, hf] using ih acc h
      | some u' =>
          have : buildTotals users (it :: rest) acc
              = buildTotals users rest (tallyItem u' it acc) := by
            simp [buildTotals, hf]
          rw [this]
          exact ih _ (tallyItem_keys_nodup u' it acc h)

/-- With duplicate-free keys, association-list membership and lookup
agree. -/
theorem lookupT_eq_some_iff_mem :
    ∀ (l : List (Nat × PersonTotal)), (keysOf l).Nodup →
      ∀ (uid : Nat) (e : PersonTotal),
        ((uid, e) ∈ l ↔ lookupT uid l = some e) := by
  intro l
  induction l with
  | nil => intro _ uid e; simp [lookupT]
  | cons kv rest ih =>
      intro hnd uid e
      obtain ⟨k, x⟩ := kv
      have hnd' : (k :: keysOf rest).Nodup := hnd
      have hk : k ∉ keysOf rest := (List.nodup_cons.mp hnd').1
      have hrest : (keysOf rest).Nodup := (List.nodup_cons.mp hnd').2
      by_cases hku : k = uid
      · subst hku
        have hnm : (k, e) ∉ rest := fun hmem => hk (by
          have : k ∈ keysOf rest := by
            simpa [keysOf] using List.mem_map_of_mem (fun p => p.1) hmem
          exact this)
        simp only [lookupT, if_pos rfl, List.mem_cons]
        constructor
        · intro hc
          rcases hc with hc | hc
          · simp [Prod.ext_iff] at hc
            simp [hc]
          · exact absurd hc hnm
        · intro hc
          left
          simpa using (Option.some.inj hc).symm
      · have hne : ¬ ((uid, e) = (k, x)) := by
          simp [Prod.ext_iff]
          intro hh
          exact absurd hh.symm hku
        simp only [lookupT, List.mem_cons]
        rw [if_neg hku]
        constructor
        · intro hc
          rcases hc with hc | hc
          · exact absurd hc hne
          · exact (ih hrest uid e).mp hc
        · intro hc
          right
          exact (ih hrest uid e).mpr hc

/-- Sorted insertion permutes a cons. -/
theorem insertT_perm (a : Nat × PersonTotal) :
    ∀ l, List.Perm (insertT a l) (a :: l) := by
  intro l
  induction l with
  | nil => simp [insertT]
  | cons b bs ih =>
      by_cases hlt : totKey a < totKey b
      · simp [insertT, hlt]
      · have h1 : List.Perm (b :: insertT a bs) (b :: (a :: bs)) := ih.cons b
        have h2 : List.Perm (b :: a :: bs) (a :: b :: bs) := List.Perm.swap a b bs
        simpa [insertT, hlt] using h1.trans h2

/-- Insertion-sorting is a permutation. -/
theorem sortTotals_perm : ∀ l, List.Perm (sortTotals l) l := by
  have key : ∀ (l acc : List (Nat × PersonTotal)),
      List.Perm (l.foldl (fun acc a => insertT a acc) acc) (acc ++ l) := by
    intro l
    induction l with
    | nil => intro acc; simp
    | cons a as ih =>
        intro acc
        have h1 := ih (insertT a acc)
        have h2 : List.Perm (insertT a acc ++ as) ((a :: acc) ++ as) :=
          (insertT_perm a acc).append_right as
        have h3 : List.Perm (a :: (acc ++ as)) (acc ++ a :: as) :=
          List.perm_middle.symm
        simpa using (h1.trans h2).trans h3
  intro l
  simpa using key l []

/-- Sorted insertion preserves sortedness under `totLE`. -/
theorem insertT_sorted (a : Nat × PersonTotal) :
    ∀ l, l.Pairwise totLE → (insertT a l).Pairwise totLE := by
  intro l
  induction l with
  | nil => intro _; simp [insertT, List.pairwise_cons]
  | cons b bs ih =>
      intro hp
      rcases List.pairwise_cons.mp hp with ⟨hb, hbs⟩
      by_cases hlt : totKey a < totKey b
      · rw [insertT, if_pos hlt]
        refine List.pairwise_cons.mpr ⟨?_, hp⟩
        intro x hx
        rcases List.mem_cons.mp hx with hx | hx
        · subst hx
          exact lt_asymm hlt
        · have hbx : ¬ (totKey x < totKey b) := hb x hx
          have : totKey a < totKey x := lt_of_lt_of_le hlt (not_lt.mp hbx)
          exact lt_asymm this
      · rw [insertT, if_neg hlt]
        refine List.pairwise_cons.mpr ⟨?_, ih hbs⟩
        intro x hx
        rcases List.mem_cons.mp ((insertT_perm a bs).mem_iff.mp hx) with hx | hx
        · subst hx
          exact hlt
        · exact hb x hx

/-- Insertion sort yields a list sorted under `totLE`. -/
theorem sortTotals_sorted : ∀ l, (sortTotals l).Pairwise totLE := by
  have key : ∀ (l acc : List (Nat × PersonTotal)), acc.Pairwise totLE →
      (l.foldl (fun acc a => insertT a acc) acc).Pairwise totLE := by
    intro l
    induction l with
    | nil => intro acc h; exact h
    | cons a as ih => intro acc h; exact ih _ (insertT_sorted a acc h)
  intro l
  exact key l [] (by simp)

/-- C5: the per-person totals of `summary_partial` are sorted by
display name case-insensitively ascending; a row keyed by a resolvable
submitter exists exactly when that person still has items, and then
carries their display name, email, the sum of their quantities
(unpriced items included) and the sum of price times quantity over
their priced items; a submitter that does not resolve gets no row; the
spec's example — prices {3.50 x2, null x1} — yields item_count 3 and
subtotal 7.00. -/
theorem totals_by_person_correct :
    (∀ (items : List OrderItem) (users : List User),
        (totals_by_person items users).Pairwise totLE)
    ∧ (∀ (items : List OrderItem) (users : List User) (uid : Nat) (u : User)
        (e : PersonTotal), findUser users uid = some u →
        ((uid, e) ∈ totals_by_person items users ↔
          (items.any (fun it => it.user_id == uid) = true
           ∧ e = ⟨u.full_name, u.email, sum_qty uid items, sum_price uid items⟩)))
    ∧ (∀ (items : List OrderItem) (users : List User) (uid : Nat) (e : PersonTotal),
        findUser users uid = none → (uid, e) ∉ totals_by_person items users)
    ∧ totals_by_person
        [⟨1, 1, 7, "Margherita", 2, some (7/2), none, 0, 0⟩,
         ⟨2, 1, 7, "Cola", 1, none, none, 0, 0⟩]
        [⟨7, "bea@x", "Bea", false⟩]
        = [(7, ⟨"Bea", "bea@x", 3, 7⟩)] := by
  refine ⟨?_, ?_, ?_, by with_unfolding_all decide⟩
  · intro items users
    exact sortTotals_sorted _
  · intro items users uid u e hu
    have hnd : (keysOf (buildTotals users items [])).Nodup :=
      buildTotals_keys_nodup users items [] (by simp [keysOf])
    have hperm := sortTotals_perm (buildTotals users items [])
    have hlk := buildTotals_lookup users items [] uid u hu
    constructor
    · intro hmem
      have hmem' : (uid, e) ∈ buildTotals users items [] := hperm.mem_iff.mp hmem
      have hsome := (lookupT_eq_some_iff_mem _ hnd uid e).mp hmem'
      rw [hlk] at hsome
      simp only [lookupT] at hsome
      by_cases hany : items.any (fun it => it.user_id == uid) = true
      · rw [if_pos hany] at hsome
        exact ⟨hany, (Option.some.inj hsome).symm⟩
      · rw [if_neg hany] at hsome
        cases hsome
    · rintro ⟨hany, he⟩
      subst he
      have hsome : lookupT uid (buildTotals users items []) =
          some ⟨u.full_name, u.email, sum_qty uid items, sum_price uid items⟩ := by
        rw [hlk]
        simp only [lookupT]
        rw [if_pos hany]
      have hmem' := (lookupT_eq_some_iff_mem _ hnd uid _).mpr hsome
      exact hperm.mem_iff.mpr hmem'
  · intro items users uid e hu hmem
    have hmem' : (uid, e) ∈ buildTotals users items [] :=
      (sortTotals_perm _).mem_iff.mp hmem
    have hnd : (keysOf (buildTotals users items [])).Nodup :=
      buildTotals_keys_nodup users items [] (by simp [keysOf])
    have hsome := (lookupT_eq_some_iff_mem _ hnd uid e).mp hmem'
    rw [buildTotals_lookup_none users items [] uid hu] at hsome
    simp [lookupT] at hsome

/-- Witness for C5: the spec's example person row — quantities 2 and
1, prices 3.50 and null — appears with item_count 3 and subtotal 7. -/
theorem totals_by_person_correct_witness :
    (7, (⟨"Bea", "bea@x", 3, 7⟩ : PersonTotal)) ∈
      totals_by_person
        [⟨1, 1, 7, "Margherita", 2, some (7/2), none, 0, 0⟩,
         ⟨2, 1, 7, "Cola", 1, none, none, 0, 0⟩]
        [⟨7, "bea@x", "Bea", false⟩] :=
  (totals_by_person_correct.2.1 _ _ 7 ⟨7, "bea@x", "Bea", false⟩ _
      (by with_unfolding_all decide)).mpr
    ⟨by with_unfolding_all decide, by with_unfolding_all decide⟩

/-- C6: every transcript item line is `"  - {quantity}x {name} ({note})"`
with the `"{quantity}x "` prefix dropped when the quantity is 1 and the
`" ({note})"` suffix dropped when the note is empty; the two example
items render as the spec shows. -/
theorem item_line_correct :
    (∀ it : OrderItem,
        item_line it = spec_item_line it.quantity it.item_name (it.notes.getD ""))
    ∧ item_line ⟨1, 1, 1, "Pizza", 1, none, none, 0, 0⟩ = "  - Pizza"
    ∧ item_line ⟨1, 1, 1, "Pizza", 2, none, some "extra cheese", 0, 0⟩
        = "  - 2x Pizza (extra cheese)" := by
  refine ⟨?_, by decide, by decide⟩
  intro it
  unfold item_line spec_item_line
  cases hn : it.notes with
  | none => by_cases hq : it.quantity = 1 <;> simp [hq]
  | some n =>
      by_cases hq : it.quantity = 1 <;> by_cases hne : n = "" <;> simp [hq, hne]

end HiveFood
